import Mathlib

/-!
Shallow embedding of the LTI 1.3 core of the GlobalExpiditionJournal
repository (src/internal/lti and the platform repository), together with
theorems settling the spec claims about it.

Time is modelled in seconds as Nat.  Cryptographic primitives (HMAC and
RSA signatures) are modelled symbolically as ideal signatures: a
signature value records the algorithm, the key and the signed payload,
and verification compares these records for equality.
-/

set_option maxRecDepth 8000

namespace GEJ

/-! ## State store (src/internal/lti/state.go) -/

/-- StateData holds the state information for an LTI launch
(state.go, struct StateData).  CreatedAt is seconds. -/
structure StateData where
  Nonce : String
  TargetLinkURI : String
  ClientID : String
  CreatedAt : Nat
deriving DecidableEq, Repr

/-- The internal map of a StateStore (state.go, field states),
modelled as its per-key lookup function. -/
abbrev StateStore := String → Option StateData

/-- A StateStore as produced by NewStateStore: empty. -/
def StateStore.empty : StateStore := fun _ => none

/-- StateStore.Store (state.go lines 53-58): saves state data,
overwriting CreatedAt with the current time. -/
def StateStore.Store (s : StateStore) (now : Nat) (state : String) (data : StateData) :
    StateStore :=
  fun k => if k = state then some { data with CreatedAt := now } else s k

/-- StateStore.Get (state.go lines 61-69): retrieves and removes state
data (one-time use).  Returns the looked-up value and the store after
the call. -/
def StateStore.Get (s : StateStore) (state : String) : Option StateData × StateStore :=
  match s state with
  | some d => (some d, fun k => if k = state then none else s k)
  | none => (none, s)

/-- StateStore.Peek (state.go lines 72-77): non-consuming read. -/
def StateStore.Peek (s : StateStore) (state : String) : Option StateData :=
  s state

/-- The 10-minute TTL used by the cleanup sweep, in seconds. -/
def stateTTL : Nat := 600

/-- One pass of the cleanup sweep (state.go lines 80-92) executed at
time now: deletes every entry with now - CreatedAt > 10 minutes. -/
def StateStore.cleanup (s : StateStore) (now : Nat) : StateStore :=
  fun k =>
    match s k with
    | some d => if now - d.CreatedAt > stateTTL then none else some d
    | none => none

/-- The public operations on a StateStore, used to reason about every
store reachable through the public interface. -/
inductive StateOp where
  | storeOp (state : String) (data : StateData)
  | getOp (state : String)
  | cleanupOp
deriving DecidableEq, Repr

/-- Apply one timed public operation to a store. -/
def applyOp (s : StateStore) : Nat × StateOp → StateStore
  | (now, .storeOp k d) => s.Store now k d
  | (_, .getOp k) => (s.Get k).2
  | (now, .cleanupOp) => s.cleanup now

/-- Run a timed trace of public operations, oldest first. -/
def runOps : List (Nat × StateOp) → StateStore → StateStore
  | [], s => s
  | op :: rest, s => runOps rest (applyOp s op)

/-! ## Session manager (src/internal/lti/session.go) -/

/-- JOSE signing algorithms relevant to the code: the three HMAC
methods accepted by the *jwt.SigningMethodHMAC type switch, two
asymmetric methods, and the unsigned alg. -/
inductive SigAlg where
  | HS256 | HS384 | HS512 | RS256 | ES256 | noAlg
deriving DecidableEq, Repr

/-- Whether the method is a *jwt.SigningMethodHMAC (session.go line 57). -/
def SigAlg.isHMAC : SigAlg → Bool
  | .HS256 | .HS384 | .HS512 => true
  | _ => false

/-- SessionClaims (session.go, struct SessionClaims) together with the
registered claims CreateToken sets. -/
structure SessionClaims where
  ExpiresAt : Nat
  IssuedAt : Nat
  NotBefore : Nat
  UserID : Nat
  CanvasID : String
  CourseID : String
  Role : String
deriving DecidableEq, Repr

/-- A symbolic HMAC signature: records the algorithm, key and payload.
Verification is equality of records (ideal MAC). -/
structure MacSig where
  alg : SigAlg
  key : String
  payload : SessionClaims
deriving DecidableEq, Repr

/-- A session JWT: its header alg, its claims, and its signature. -/
structure SessionToken where
  alg : SigAlg
  claims : SessionClaims
  sig : MacSig
deriving DecidableEq, Repr

/-- SessionManager (session.go): signing secret and max age (seconds). -/
structure SessionManager where
  secret : String
  maxAge : Nat
deriving DecidableEq, Repr

/-- SessionManager.CreateToken (session.go lines 35-51) at time now. -/
def SessionManager.CreateToken (m : SessionManager) (now : Nat) (userID : Nat)
    (canvasID courseID role : String) : SessionToken :=
  let claims : SessionClaims :=
    { ExpiresAt := now + m.maxAge, IssuedAt := now, NotBefore := now,
      UserID := userID, CanvasID := canvasID, CourseID := courseID, Role := role }
  { alg := .HS256, claims := claims,
    sig := { alg := .HS256, key := m.secret, payload := claims } }

/-- SessionManager.ValidateToken (session.go lines 54-72) at time now:
the keyfunc rejects any non-HMAC method, jwt.ParseWithClaims verifies
the signature against the manager secret and validates the registered
exp and nbf claims (golang-jwt v5: valid while now < exp and nbf ≤ now). -/
def SessionManager.ValidateToken (m : SessionManager) (now : Nat) (t : SessionToken) :
    Except String SessionClaims :=
  if !t.alg.isHMAC then .error "unexpected signing method"
  else if t.sig ≠ { alg := t.alg, key := m.secret, payload := t.claims : MacSig } then
    .error "signature is invalid"
  else if t.claims.ExpiresAt ≤ now then .error "token is expired"
  else if now < t.claims.NotBefore then .error "token is not valid yet"
  else .ok t.claims

/-- Whether an Except is an error. -/
def isErr {ε α : Type} : Except ε α → Bool
  | .error _ => true
  | .ok _ => false

/-! ## Platform registry (src/unnamed/part_019, package lti) -/

/-- Platform (part_019): a registered LMS deployment.  CreatedAt and
UpdatedAt are seconds; soft deletion is not exercised by the claims. -/
structure Platform where
  ID : Nat
  Issuer : String
  ClientID : String
  DeploymentID : String
  JWKSEndpoint : String
  AuthEndpoint : String
  TokenEndpoint : String
  Name : String
  CreatedAt : Nat
deriving DecidableEq, Repr

/-- The lti_platforms table: rows in primary-key order, plus the next
autoincrement id. -/
structure PlatformDB where
  rows : List Platform
  nextID : Nat
deriving DecidableEq, Repr

/-- PlatformRepository.FindByIssuer (part_019 lines 46-53): first row
whose issuer matches. -/
def PlatformDB.FindByIssuer (db : PlatformDB) (issuer : String) : Option Platform :=
  db.rows.find? (fun p => p.Issuer == issuer)

/-- PlatformRepository.FindByClientID (part_019 lines 65-72). -/
def PlatformDB.FindByClientID (db : PlatformDB) (clientID : String) : Option Platform :=
  db.rows.find? (fun p => p.ClientID == clientID)

/-- PlatformRepository.Create (part_019 lines 41-43): insert, letting
the autoincrement key assign the id when the record carries none. -/
def PlatformDB.Create (db : PlatformDB) (p : Platform) : PlatformDB :=
  let p1 := if p.ID = 0 then { p with ID := db.nextID } else p
  { rows := db.rows ++ [p1], nextID := db.nextID + 1 }

/-- PlatformRepository.Update (part_019 lines 75-77): gorm Save, which
updates every field of the row with the same primary key. -/
def PlatformDB.Update (db : PlatformDB) (p : Platform) : PlatformDB :=
  { db with rows := db.rows.map (fun r => if r.ID = p.ID then p else r) }

/-- PlatformRepository.Upsert (part_019 lines 92-102): update keyed by
issuer when the issuer exists, reusing its id and CreatedAt, else create. -/
def PlatformDB.Upsert (db : PlatformDB) (p : Platform) : PlatformDB :=
  match db.FindByIssuer p.Issuer with
  | some existing => db.Update { p with ID := existing.ID, CreatedAt := existing.CreatedAt }
  | none => db.Create p

/-- Well-formedness maintained by the schema: primary keys are unique,
the issuer column has a unique index, and ids stay below the
autoincrement counter. -/
def PlatformDB.wf (db : PlatformDB) : Prop :=
  (db.rows.map Platform.ID).Nodup ∧ (db.rows.map Platform.Issuer).Nodup ∧
  ∀ r ∈ db.rows, r.ID < db.nextID

/-- Number of rows registered under an issuer. -/
def PlatformDB.countIssuer (db : PlatformDB) (issuer : String) : Nat :=
  (db.rows.filter (fun p => p.Issuer == issuer)).length

/-! ## LTI token validator (src/internal/lti/jwt.go) -/

/-- LTIClaims (jwt.go, struct LTIClaims): the registered claims the
parser validates plus the LTI claims the validator and handler read.
Context is the open string map of the context claim restricted to its
string-valued entries. -/
structure LTIClaims where
  Issuer : String
  Audience : List String
  Subject : String
  ExpiresAt : Option Nat
  Name : String
  Email : String
  MessageType : String
  DeploymentID : String
  Nonce : String
  Roles : List String
  Context : List (String × String)
deriving DecidableEq, Repr

/-- Lookup in an open string map (the interface-valued claim maps). -/
def lookupStr (m : List (String × String)) (k : String) : Option String :=
  (m.find? (fun p => p.1 == k)).map (fun p => p.2)

/-- LTIClaims.GetContextID (jwt.go lines 41-49). -/
def LTIClaims.GetContextID (c : LTIClaims) : String :=
  match lookupStr c.Context "id" with
  | some id => id
  | none => ""

/-- LTIClaims.HasRole (jwt.go lines 63-70). -/
def LTIClaims.HasRole (c : LTIClaims) (role : String) : Bool :=
  c.Roles.contains role

/-- LTIClaims.IsInstructor (jwt.go lines 73-84). -/
def LTIClaims.IsInstructor (c : LTIClaims) : Bool :=
  c.HasRole "http://purl.imsglobal.org/vocab/lis/v2/membership#Instructor" ||
  c.HasRole "http://purl.imsglobal.org/vocab/lis/v2/institution/person#Instructor"

/-- LTIClaims.IsLearner (jwt.go lines 87-98). -/
def LTIClaims.IsLearner (c : LTIClaims) : Bool :=
  c.HasRole "http://purl.imsglobal.org/vocab/lis/v2/membership#Learner" ||
  c.HasRole "http://purl.imsglobal.org/vocab/lis/v2/institution/person#Student"

/-- A symbolic RSA signature over an id_token payload: records the
signing key (by key id) and the signed payload. -/
structure RsaSig where
  key : Nat
  payload : LTIClaims
deriving DecidableEq, Repr

/-- An inbound LTI id_token: header alg, claims and signature. -/
structure LTIToken where
  alg : SigAlg
  claims : LTIClaims
  sig : RsaSig
deriving DecidableEq, Repr

/-- The network environment of JWKS fetches: the key set published at a
JWKS URL, or none when the fetch fails. -/
abbrev JWKSEnv := String → Option (List Nat)

/-- The decoding of wire token strings into structured tokens; none for
a malformed token string. -/
abbrev TokenEnv := String → Option LTIToken

/-- JWTValidator (jwt.go): its JWKS fetching and token parsing
environment.  The jwksCache only affects how often the network is hit,
not which key set a URL resolves to, so it is not modelled separately. -/
structure JWTValidator where
  jwks : JWKSEnv
  parseTok : TokenEnv

/-- JWTValidator.ValidateToken (jwt.go lines 112-144) at time now:
fetch the platform keys, parse and verify the token against them with
issuer and audience options (golang-jwt v5 also validates exp when
present), then check the nonce and the LTI message type. -/
def JWTValidator.ValidateToken (v : JWTValidator) (now : Nat) (tokenString : String)
    (platform : Platform) (expectedNonce : String) : Except String LTIClaims :=
  match v.jwks platform.JWKSEndpoint with
  | none => .error "failed to get JWKS"
  | some keys =>
    match v.parseTok tokenString with
    | none => .error "failed to parse token: token is malformed"
    | some t =>
      if t.alg ≠ SigAlg.RS256 then .error "failed to parse token: signing method mismatch"
      else if ¬ (t.sig.payload = t.claims ∧ t.sig.key ∈ keys) then
        .error "failed to parse token: signature is invalid"
      else if (match t.claims.ExpiresAt with | some e => decide (e ≤ now) | none => false) then
        .error "failed to parse token: token is expired"
      else if t.claims.Issuer ≠ platform.Issuer then
        .error "failed to parse token: issuer is invalid"
      else if platform.ClientID ∉ t.claims.Audience then
        .error "failed to parse token: audience is invalid"
      else if t.claims.Nonce ≠ expectedNonce then .error "nonce mismatch"
      else if t.claims.MessageType ≠ "LtiResourceLinkRequest" ∧
              t.claims.MessageType ≠ "LtiDeepLinkingRequest" then
        .error ("unsupported message type: " ++ t.claims.MessageType)
      else .ok t.claims

/-! ## Users (src/internal/models/user.go as used by the handler) -/

/-- User: local identity linked to an external identity. -/
structure User where
  ID : Nat
  CanvasUserID : String
  CanvasInstanceURL : String
  DisplayName : String
  Email : String
deriving DecidableEq, Repr

/-! ## Protocol handler (src/internal/lti/handler.go) -/

/-- The inbound HTTP connection data the handler reads: whether the
direct connection carries TLS (request.TLS non-nil), the Host, and the
two forwarding headers with the empty string for an absent header. -/
structure HttpRequest where
  TLS : Bool
  Host : String
  XForwardedProto : String
  XForwardedHost : String
deriving DecidableEq, Repr

/-- getLaunchURL (handler.go lines 278-292): scheme from TLS, then
overridden by X-Forwarded-Proto when present; host overridden by
X-Forwarded-Host when present. -/
def getLaunchURL (r : HttpRequest) : String :=
  let scheme := if r.TLS then "https" else "http"
  let scheme1 := if r.XForwardedProto ≠ "" then r.XForwardedProto else scheme
  let host := if r.XForwardedHost ≠ "" then r.XForwardedHost else r.Host
  scheme1 ++ "://" ++ host ++ "/lti/launch"

/-- url.Values: a query string as key-value pairs. -/
abbrev Query := List (String × String)

/-- url.Values.Set: replaces any existing values for the key. -/
def Query.set (q : Query) (k v : String) : Query :=
  q.filter (fun p => p.1 ≠ k) ++ [(k, v)]

/-- Lookup of the value a query carries for a key. -/
def Query.get (q : Query) (k : String) : Option String :=
  (q.find? (fun p => p.1 == k)).map (fun p => p.2)

/-- url.Parse of an endpoint URL as the handler uses it: the URL with
its query stripped, plus that query; none when parsing fails. -/
abbrev URLEnv := String → Option (String × Query)

/-- Handler (handler.go, struct Handler): the state the two endpoints
read and write.  The users list stands for the user table of h.db. -/
structure Handler where
  platformRepo : PlatformDB
  stateStore : StateStore
  jwtValidator : JWTValidator
  sessionManager : SessionManager
  frontendURL : String
  users : List User
  nextUserID : Nat

/-- Handler.findOrCreateUser (handler.go lines 220-262): find by
(canvas_user_id, canvas_instance_url); create when absent, else update
the mutable display fields when the claims carry non-empty new values.
Returns the user together with the updated table and autoincrement. -/
def findOrCreateUser (users : List User) (nextID : Nat) (claims : LTIClaims)
    (platform : Platform) : User × List User × Nat :=
  match users.find? (fun u =>
      u.CanvasUserID == claims.Subject && u.CanvasInstanceURL == platform.Issuer) with
  | none =>
    let u : User := { ID := nextID, CanvasUserID := claims.Subject,
                      CanvasInstanceURL := platform.Issuer,
                      DisplayName := claims.Name, Email := claims.Email }
    (u, users ++ [u], nextID + 1)
  | some u =>
    let u1 := if claims.Name ≠ "" ∧ u.DisplayName ≠ claims.Name then
                { u with DisplayName := claims.Name } else u
    let u2 := if claims.Email ≠ "" ∧ u1.Email ≠ claims.Email then
                { u1 with Email := claims.Email } else u1
    (u2, users.map (fun w => if w.ID = u2.ID then u2 else w), nextID)

/-- The login-initiation parameters, query or form (empty = absent). -/
structure LoginForm where
  iss : String
  login_hint : String
  target_link_uri : String
  client_id : String
  lti_message_hint : String
deriving DecidableEq, Repr

/-- The response of LoginInitiation: a JSON error or a redirect to an
authorization URL given as its base and query. -/
inductive LoginResult where
  | jsonError (status : Nat) (msg : String)
  | redirect (status : Nat) (base : String) (query : Query)
deriving DecidableEq, Repr

/-- The HTTP status of a login-initiation response. -/
def LoginResult.statusOf : LoginResult → Nat
  | .jsonError s _ => s
  | .redirect s _ _ => s

/-- The redirect base URL of a login-initiation response, if any. -/
def LoginResult.baseOf : LoginResult → Option String
  | .jsonError _ _ => none
  | .redirect _ b _ => some b

/-- The redirect query of a login-initiation response. -/
def LoginResult.queryOf : LoginResult → Query
  | .jsonError _ _ => []
  | .redirect _ _ q => q

/-- Handler.LoginInitiation (handler.go lines 54-136) at time now.  The
generated state and nonce are passed in (they are random in the code);
parseURL is the url.Parse environment. -/
def Handler.LoginInitiation (h : Handler) (parseURL : URLEnv) (now : Nat)
    (req : HttpRequest) (form : LoginForm) (state nonce : String) :
    LoginResult × StateStore :=
  if form.iss = "" then (.jsonError 400 "missing iss parameter", h.stateStore)
  else if form.login_hint = "" then (.jsonError 400 "missing login_hint parameter", h.stateStore)
  else if form.target_link_uri = "" then
    (.jsonError 400 "missing target_link_uri parameter", h.stateStore)
  else
    match h.platformRepo.FindByIssuer form.iss with
    | none => (.jsonError 400 "unknown platform issuer", h.stateStore)
    | some platform =>
      if form.client_id ≠ "" ∧ form.client_id ≠ platform.ClientID then
        (.jsonError 400 "client_id mismatch", h.stateStore)
      else
        let store1 := h.stateStore.Store now state
          { Nonce := nonce, TargetLinkURI := form.target_link_uri,
            ClientID := platform.ClientID, CreatedAt := 0 }
        match parseURL platform.AuthEndpoint with
        | none => (.jsonError 500 "invalid auth endpoint", store1)
        | some (base, q0) =>
          let launchURL := getLaunchURL req
          let q1 := ((((((((q0.set "scope" "openid").set "response_type" "id_token").set
            "client_id" platform.ClientID).set "redirect_uri" launchURL).set
            "login_hint" form.login_hint).set "state" state).set
            "response_mode" "form_post").set "nonce" nonce).set "prompt" "none"
          let q2 := if form.lti_message_hint ≠ "" then
                      q1.set "lti_message_hint" form.lti_message_hint else q1
          (.redirect 302 base q2, store1)

/-- The launch form parameters (empty = absent). -/
structure LaunchForm where
  id_token : String
  state : String
deriving DecidableEq, Repr

/-- The session cookie as SetCookie receives it (handler.go lines
200-209). -/
structure Cookie where
  name : String
  value : SessionToken
  maxAge : Nat
  path : String
  domain : String
  secure : Bool
  httpOnly : Bool
deriving DecidableEq, Repr

/-- The response of Launch: status, JSON error message if any, session
cookie if set, redirect target if any. -/
structure LaunchResult where
  status : Nat
  errorMsg : Option String
  cookie : Option Cookie
  redirect : Option String
deriving DecidableEq, Repr

/-- Handler.Launch (handler.go lines 140-217) at time now: validate the
form, consume the state, resolve the platform, validate the token,
find-or-create the user, mint the session, set the cookie and redirect.
Returns the response and the handler state after the call. -/
def Handler.Launch (h : Handler) (now : Nat) (req : HttpRequest) (form : LaunchForm) :
    LaunchResult × Handler :=
  if form.id_token = "" then
    ({ status := 400, errorMsg := some "missing id_token", cookie := none, redirect := none }, h)
  else if form.state = "" then
    ({ status := 400, errorMsg := some "missing state", cookie := none, redirect := none }, h)
  else
    match h.stateStore.Get form.state with
    | (none, store1) =>
      ({ status := 400, errorMsg := some "invalid or expired state",
         cookie := none, redirect := none }, { h with stateStore := store1 })
    | (some stateData, store1) =>
      let h1 := { h with stateStore := store1 }
      match h.platformRepo.FindByClientID stateData.ClientID with
      | none =>
        ({ status := 400, errorMsg := some "platform not found",
           cookie := none, redirect := none }, h1)
      | some platform =>
        match h.jwtValidator.ValidateToken now form.id_token platform stateData.Nonce with
        | .error e =>
          ({ status := 401, errorMsg := some ("token validation failed: " ++ e),
             cookie := none, redirect := none }, h1)
        | .ok claims =>
          let fc := findOrCreateUser h.users h.nextUserID claims platform
          let user := fc.1
          let h2 := { h1 with users := fc.2.1, nextUserID := fc.2.2 }
          let role := if claims.IsInstructor then "instructor" else "learner"
          let sessionToken := h.sessionManager.CreateToken now user.ID claims.Subject
            claims.GetContextID role
          let cookie : Cookie :=
            { name := "session", value := sessionToken, maxAge := h.sessionManager.maxAge,
              path := "/", domain := "", secure := req.TLS, httpOnly := true }
          let redirectURL := if stateData.TargetLinkURI ≠ "" then stateData.TargetLinkURI
                             else h.frontendURL
          ({ status := 302, errorMsg := none, cookie := some cookie,
             redirect := some redirectURL }, h2)

/-! ## Concrete scenario used by witnesses -/

/-- A store with one entry created at time 0, after every scheduled
cleanup sweep up to time 600 (the sweep runs once a minute). -/
def backdatedStore : StateStore :=
  (List.range 10).foldl (fun s i => s.cleanup ((i + 1) * 60))
    (StateStore.empty.Store 0 "st" ⟨"n0", "t0", "c0", 0⟩)

/-- A registered platform. -/
def exPlatform : Platform :=
  { ID := 1, Issuer := "https://canvas.example.com", ClientID := "client-123",
    DeploymentID := "dep-1", JWKSEndpoint := "https://canvas.example.com/jwks",
    AuthEndpoint := "https://canvas.example.com/auth", TokenEndpoint := "",
    Name := "Canvas", CreatedAt := 0 }

/-- The network: the platform JWKS endpoint publishes key 7. -/
def exJWKS : JWKSEnv :=
  fun u => if u = "https://canvas.example.com/jwks" then some [7] else none

/-- Claims of a valid launch token bound to nonce nonce-1. -/
def exClaims : LTIClaims :=
  { Issuer := "https://canvas.example.com", Audience := ["client-123"],
    Subject := "user-7", ExpiresAt := some 1000, Name := "Ada", Email := "ada@example.com",
    MessageType := "LtiResourceLinkRequest", DeploymentID := "dep-1", Nonce := "nonce-1",
    Roles := ["http://purl.imsglobal.org/vocab/lis/v2/membership#Learner"],
    Context := [("id", "course-9"), ("label", "C9")] }

/-- A token valid in every respect, signed with key 7. -/
def exGoodToken : LTIToken :=
  { alg := .RS256, claims := exClaims, sig := { key := 7, payload := exClaims } }

/-- The same token but carrying a different nonce claim. -/
def exBadNonceToken : LTIToken :=
  { alg := .RS256, claims := { exClaims with Nonce := "evil" },
    sig := { key := 7, payload := { exClaims with Nonce := "evil" } } }

/-- Wire decoding: two known token strings. -/
def exParse : TokenEnv :=
  fun s =>
    if s = "good-token" then some exGoodToken
    else if s = "bad-nonce-token" then some exBadNonceToken
    else none

/-- The validator over this environment. -/
def exValidator : JWTValidator := { jwks := exJWKS, parseTok := exParse }

/-- A handler holding one platform, one pending state entry bound to
nonce-1, and no users. -/
def exHandler : Handler :=
  { platformRepo := { rows := [exPlatform], nextID := 2 },
    stateStore := StateStore.empty.Store 0 "state-1"
      ⟨"nonce-1", "https://app.example.com/home", "client-123", 0⟩,
    jwtValidator := exValidator,
    sessionManager := { secret := "session-secret", maxAge := 86400 },
    frontendURL := "/",
    users := [],
    nextUserID := 1 }

/-- The plain-HTTP-behind-proxy request used in the launch witnesses. -/
def exReq : HttpRequest :=
  { TLS := false, Host := "app.example.com", XForwardedProto := "https", XForwardedHost := "" }

/-- The launch form of the successful scenario. -/
def exForm : LaunchForm := { id_token := "good-token", state := "state-1" }

/-- url.Parse for the registered auth endpoint. -/
def exParseURL : URLEnv :=
  fun u => if u = "https://canvas.example.com/auth"
    then some ("https://canvas.example.com/auth", []) else none

/-- The platform table of the scenario. -/
def exDB : PlatformDB := { rows := [exPlatform], nextID := 2 }

/-- A fresh registration record for the already-registered issuer. -/
def exUpsertPlat : Platform :=
  { ID := 0, Issuer := "https://canvas.example.com", ClientID := "client-999",
    DeploymentID := "dep-2", JWKSEndpoint := "https://canvas.example.com/jwks2",
    AuthEndpoint := "https://canvas.example.com/auth2", TokenEndpoint := "tok",
    Name := "Canvas v2", CreatedAt := 77 }

/-- The session claims minted by the successful launch at time 10. -/
def exSessionClaims : SessionClaims :=
  { ExpiresAt := 86410, IssuedAt := 10, NotBefore := 10,
    UserID := 1, CanvasID := "user-7", CourseID := "course-9", Role := "learner" }

/-- The cookie set by the successful launch of the scenario. -/
def exCookie : Cookie :=
  { name := "session",
    value := { alg := .HS256, claims := exSessionClaims,
               sig := { alg := .HS256, key := "session-secret", payload := exSessionClaims } },
    maxAge := 86400, path := "/", domain := "", secure := false, httpOnly := true }

/-! ## Theorems -/

/-- C1: For every state token stored in the StateStore, a successful Get
returns the stored data and removes the entry; a second Get on the same
state returns NotFound, and only storing the state again makes a further
Get succeed.  Two calls on the same state cannot both succeed. -/
theorem stateStore_get_and_consume_once (s : StateStore) (state : String)
    (d d' : StateData) (now : Nat) (h : s state = some d) :
    (s.Get state).1 = some d ∧
    ((s.Get state).2).Peek state = none ∧
    (((s.Get state).2).Get state).1 = none ∧
    ((((s.Get state).2).Store now state d').Get state).1 = some { d' with CreatedAt := now } := by
  simp [StateStore.Get, StateStore.Peek, StateStore.Store, h]

theorem stateStore_get_and_consume_once_witness :
    (StateStore.empty.Store 0 "s1" ⟨"n0", "t0", "c0", 9⟩) "s1" = some ⟨"n0", "t0", "c0", 0⟩ ∧
    (((StateStore.empty.Store 0 "s1" ⟨"n0", "t0", "c0", 9⟩).Get "s1").1
        = some ⟨"n0", "t0", "c0", 0⟩ ∧
      (((StateStore.empty.Store 0 "s1" ⟨"n0", "t0", "c0", 9⟩).Get "s1").2).Peek "s1" = none ∧
      ((((StateStore.empty.Store 0 "s1" ⟨"n0", "t0", "c0", 9⟩).Get "s1").2).Get "s1").1 = none ∧
      (((((StateStore.empty.Store 0 "s1" ⟨"n0", "t0", "c0", 9⟩).Get "s1").2).Store 50 "s1"
          ⟨"n1", "t1", "c1", 3⟩).Get "s1").1 = some ⟨"n1", "t1", "c1", 50⟩) :=
  ⟨by decide,
   stateStore_get_and_consume_once (StateStore.empty.Store 0 "s1" ⟨"n0", "t0", "c0", 9⟩)
     "s1" ⟨"n0", "t0", "c0", 0⟩ ⟨"n1", "t1", "c1", 3⟩ 50 (by decide)⟩

/-- C3 counterexample: at time 601 the entry created at time 0 is more
than the 10-minute TTL in the past and every scheduled sweep has run,
yet Get still returns the data rather than NotFound: Get performs no
age check. -/
theorem stateStore_expired_entry_still_consumed :
    backdatedStore "st" = some ⟨"n0", "t0", "c0", 0⟩ ∧
    stateTTL < 601 - 0 ∧
    (backdatedStore.Get "st").1 = some ⟨"n0", "t0", "c0", 0⟩ := by decide

/-- C3 amended: entries older than the TTL are removed by the periodic
cleanup sweep, not by Get.  A cleanup pass at time now deletes exactly
the entries with now - CreatedAt > 10 minutes, and after such a pass
Get on an expired entry returns NotFound; Get itself performs no age
check, so an unexpired-by-sweep entry is returned regardless of age. -/
theorem stateStore_cleanup_purges_expired (s : StateStore) (now : Nat) (k : String)
    (d : StateData) (h : s k = some d) :
    (s.Get k).1 = some d ∧
    (s.cleanup now) k = (if now - d.CreatedAt > stateTTL then none else some d) ∧
    (now - d.CreatedAt > stateTTL → ((s.cleanup now).Get k).1 = none) := by
  refine ⟨by simp [StateStore.Get, h], by simp [StateStore.cleanup, h], ?_⟩
  intro hexp
  simp [StateStore.Get, StateStore.cleanup, h, hexp]

theorem stateStore_cleanup_purges_expired_witness :
    (StateStore.empty.Store 0 "st" ⟨"n0", "t0", "c0", 0⟩) "st" = some ⟨"n0", "t0", "c0", 0⟩ ∧
    ((StateStore.empty.Store 0 "st" ⟨"n0", "t0", "c0", 0⟩).Get "st").1
        = some ⟨"n0", "t0", "c0", 0⟩ ∧
    ((StateStore.empty.Store 0 "st" ⟨"n0", "t0", "c0", 0⟩).cleanup 700) "st"
        = (if 700 - (0 : Nat) > stateTTL then none else some ⟨"n0", "t0", "c0", 0⟩) ∧
    (700 - (0 : Nat) > stateTTL →
      (((StateStore.empty.Store 0 "st" ⟨"n0", "t0", "c0", 0⟩).cleanup 700).Get "st").1 = none) :=
  ⟨by decide,
   (stateStore_cleanup_purges_expired _ 700 "st" ⟨"n0", "t0", "c0", 0⟩ (by decide))⟩

/-- Every entry of a store reached by a trace of public operations was
put there by a Store call, with CreatedAt overwritten to the time of
that call. -/
theorem runOps_entry_origin (ops : List (Nat × StateOp)) :
    ∀ (s : StateStore) (k : String) (d : StateData), runOps ops s k = some d →
      (∃ t d0, (t, StateOp.storeOp k d0) ∈ ops ∧ d = { d0 with CreatedAt := t }) ∨
      s k = some d := by
  induction ops with
  | nil => intro s k d h; exact Or.inr h
  | cons op rest ih =>
    intro s k d h
    rcases ih (applyOp s op) k d h with h1 | h2
    · obtain ⟨t, d0, hm, he⟩ := h1
      exact Or.inl ⟨t, d0, List.mem_cons_of_mem _ hm, he⟩
    · rcases op with ⟨t, o⟩
      cases o with
      | storeOp k0 d0 =>
        simp only [applyOp, StateStore.Store] at h2
        by_cases hk : k = k0
        · subst hk
          rw [if_pos rfl] at h2
          exact Or.inl ⟨t, d0, List.mem_cons_self _ _, (Option.some_inj.mp h2).symm⟩
        · rw [if_neg hk] at h2
          exact Or.inr h2
      | getOp k0 =>
        refine Or.inr ?_
        simp only [applyOp, StateStore.Get] at h2
        cases hs : s k0 with
        | none => simp only [hs] at h2; exact h2
        | some d1 =>
          simp only [hs] at h2
          by_cases hk : k = k0
          · rw [if_pos hk] at h2; exact absurd h2 (by simp)
          · rw [if_neg hk] at h2; exact h2
      | cleanupOp =>
        refine Or.inr ?_
        simp only [applyOp, StateStore.cleanup] at h2
        cases hs : s k with
        | none => simp only [hs] at h2; exact absurd h2 (by simp)
        | some d1 =>
          simp only [hs] at h2
          by_cases hd : t - d1.CreatedAt > stateTTL
          · rw [if_pos hd] at h2; exact absurd h2 (by simp)
          · rw [if_neg hd] at h2; exact h2

/-- C10: Store overwrites CreatedAt with the current time regardless of
the value the caller supplied, and along any trace of public operations
from the empty store, every entry present carries as CreatedAt the time
of a Store call on its key: entries cannot be inserted backdated. -/
theorem stateStore_createdAt_is_insertion_time (s : StateStore) (now : Nat) (k : String)
    (data : StateData) (ops : List (Nat × StateOp)) (k1 : String) (d1 : StateData)
    (h : runOps ops StateStore.empty k1 = some d1) :
    (s.Store now k data) k = some { data with CreatedAt := now } ∧
    (ops.any (fun op => match op.2 with
      | .storeOp k2 _ => k2 == k1 && op.1 == d1.CreatedAt
      | _ => false)) = true := by
  constructor
  · simp [StateStore.Store]
  · rcases runOps_entry_origin ops StateStore.empty k1 d1 h with h1 | h2
    · obtain ⟨t, d0, hm, he⟩ := h1
      refine List.any_eq_true.mpr ⟨(t, StateOp.storeOp k1 d0), hm, ?_⟩
      subst he
      simp
    · exact absurd h2 (by simp [StateStore.empty])

theorem stateStore_createdAt_is_insertion_time_witness :
    runOps [(5, StateOp.storeOp "a" ⟨"n0", "t0", "c0", 999⟩)] StateStore.empty "a"
        = some ⟨"n0", "t0", "c0", 5⟩ ∧
    ((StateStore.empty.Store 7 "b" ⟨"n1", "t1", "c1", 123⟩) "b"
        = some ⟨"n1", "t1", "c1", 7⟩ ∧
      (([(5, StateOp.storeOp "a" ⟨"n0", "t0", "c0", 999⟩)] : List (Nat × StateOp)).any
        (fun op => match op.2 with
          | .storeOp k2 _ => k2 == "a" && op.1 == (⟨"n0", "t0", "c0", 5⟩ : StateData).CreatedAt
          | _ => false)) = true) :=
  ⟨by decide,
   stateStore_createdAt_is_insertion_time StateStore.empty 7 "b" ⟨"n1", "t1", "c1", 123⟩
     [(5, StateOp.storeOp "a" ⟨"n0", "t0", "c0", 999⟩)] "a" ⟨"n0", "t0", "c0", 5⟩ (by decide)⟩

/-- A token whose signature was made with a key other than the
validating manager secret is rejected. -/
theorem session_validate_wrong_key (m' : SessionManager) (now : Nat) (t : SessionToken)
    (h : t.sig.key ≠ m'.secret) : isErr (m'.ValidateToken now t) = true := by
  unfold SessionManager.ValidateToken
  split_ifs with h1 h2 h3 h4 <;> try rfl
  exact absurd (congrArg MacSig.key (not_ne_iff.mp h2)) h

/-- C5: validating a token created by the same manager before its
expiry returns exactly the four payload fields that were put in, and a
manager with a different signing secret rejects the token. -/
theorem session_token_roundtrip (m m' : SessionManager) (now now' : Nat) (u : Nat)
    (e c r : String) (hlt : now' < now + m.maxAge) (hnb : now ≤ now')
    (hsec : m.secret ≠ m'.secret) :
    m.ValidateToken now' (m.CreateToken now u e c r)
      = .ok { ExpiresAt := now + m.maxAge, IssuedAt := now, NotBefore := now,
              UserID := u, CanvasID := e, CourseID := c, Role := r } ∧
    isErr (m'.ValidateToken now' (m.CreateToken now u e c r)) = true := by
  constructor
  · simp [SessionManager.CreateToken, SessionManager.ValidateToken, SigAlg.isHMAC,
      Nat.not_le.mpr hlt, Nat.not_lt.mpr hnb]
  · exact session_validate_wrong_key m' now' (m.CreateToken now u e c r) hsec

theorem session_token_roundtrip_witness :
    (50 : Nat) < 10 + (⟨"sec", 100⟩ : SessionManager).maxAge ∧
    (10 : Nat) ≤ 50 ∧
    (⟨"sec", 100⟩ : SessionManager).secret ≠ (⟨"other", 100⟩ : SessionManager).secret ∧
    ((⟨"sec", 100⟩ : SessionManager).ValidateToken 50
        ((⟨"sec", 100⟩ : SessionManager).CreateToken 10 1 "ext-1" "course-1" "learner")
      = .ok { ExpiresAt := 10 + 100, IssuedAt := 10, NotBefore := 10,
              UserID := 1, CanvasID := "ext-1", CourseID := "course-1", Role := "learner" } ∧
      isErr ((⟨"other", 100⟩ : SessionManager).ValidateToken 50
        ((⟨"sec", 100⟩ : SessionManager).CreateToken 10 1 "ext-1" "course-1" "learner")) = true) :=
  ⟨by decide, by decide, by decide,
   session_token_roundtrip ⟨"sec", 100⟩ ⟨"other", 100⟩ 10 50 1 "ext-1" "course-1" "learner"
     (by decide) (by decide) (by decide)⟩

/-- C6: session validation rejects a token whose header declares a
non-HMAC algorithm and rejects a token past its expiry; it returns
claims only when the algorithm is HMAC, the token is unexpired and the
signature is the symbolic HMAC of the claims under the manager secret. -/
theorem session_validate_checks_alg_and_expiry (m : SessionManager) (now : Nat)
    (t : SessionToken) (c : SessionClaims) :
    (t.alg.isHMAC = false → isErr (m.ValidateToken now t) = true) ∧
    (t.claims.ExpiresAt ≤ now → isErr (m.ValidateToken now t) = true) ∧
    (m.ValidateToken now t = .ok c →
      t.alg.isHMAC = true ∧ now < t.claims.ExpiresAt ∧
      t.sig = { alg := t.alg, key := m.secret, payload := t.claims } ∧ c = t.claims) := by
  refine ⟨?_, ?_, ?_⟩
  · intro halg
    simp [SessionManager.ValidateToken, halg, isErr]
  · intro hexp
    unfold SessionManager.ValidateToken
    split_ifs <;> simp_all [isErr]
  · intro hok
    unfold SessionManager.ValidateToken at hok
    split_ifs at hok with h1 h2 h3 h4 <;> injection hok with h5 <;>
      exact ⟨by simpa using h1, by omega, not_ne_iff.mp h2, h5.symm⟩

theorem session_validate_checks_alg_and_expiry_witness :
    (⟨SigAlg.RS256, ⟨110, 10, 10, 1, "e", "c", "r"⟩,
        ⟨SigAlg.RS256, "sec", ⟨110, 10, 10, 1, "e", "c", "r"⟩⟩⟩ : SessionToken).alg.isHMAC
        = false ∧
    (⟨SigAlg.HS256, ⟨110, 10, 10, 1, "e", "c", "r"⟩,
        ⟨SigAlg.HS256, "sec", ⟨110, 10, 10, 1, "e", "c", "r"⟩⟩⟩ : SessionToken).claims.ExpiresAt
        ≤ 500 ∧
    (⟨"sec", 100⟩ : SessionManager).ValidateToken 50
        ⟨SigAlg.HS256, ⟨110, 10, 10, 1, "e", "c", "r"⟩,
          ⟨SigAlg.HS256, "sec", ⟨110, 10, 10, 1, "e", "c", "r"⟩⟩⟩
        = .ok ⟨110, 10, 10, 1, "e", "c", "r"⟩ ∧
    isErr ((⟨"sec", 100⟩ : SessionManager).ValidateToken 50
        ⟨SigAlg.RS256, ⟨110, 10, 10, 1, "e", "c", "r"⟩,
          ⟨SigAlg.RS256, "sec", ⟨110, 10, 10, 1, "e", "c", "r"⟩⟩⟩) = true ∧
    isErr ((⟨"sec", 100⟩ : SessionManager).ValidateToken 500
        ⟨SigAlg.HS256, ⟨110, 10, 10, 1, "e", "c", "r"⟩,
          ⟨SigAlg.HS256, "sec", ⟨110, 10, 10, 1, "e", "c", "r"⟩⟩⟩) = true ∧
    ((⟨SigAlg.HS256, ⟨110, 10, 10, 1, "e", "c", "r"⟩,
        ⟨SigAlg.HS256, "sec", ⟨110, 10, 10, 1, "e", "c", "r"⟩⟩⟩ : SessionToken).alg.isHMAC = true ∧
      (50 : Nat) < 110) :=
  ⟨by decide, by decide, by rfl,
   (session_validate_checks_alg_and_expiry ⟨"sec", 100⟩ 50
     ⟨SigAlg.RS256, ⟨110, 10, 10, 1, "e", "c", "r"⟩,
       ⟨SigAlg.RS256, "sec", ⟨110, 10, 10, 1, "e", "c", "r"⟩⟩⟩ ⟨110, 10, 10, 1, "e", "c", "r"⟩).1
     (by decide),
   (session_validate_checks_alg_and_expiry ⟨"sec", 100⟩ 500
     ⟨SigAlg.HS256, ⟨110, 10, 10, 1, "e", "c", "r"⟩,
       ⟨SigAlg.HS256, "sec", ⟨110, 10, 10, 1, "e", "c", "r"⟩⟩⟩ ⟨110, 10, 10, 1, "e", "c", "r"⟩).2.1
     (by decide),
   by
     have h3 := (session_validate_checks_alg_and_expiry ⟨"sec", 100⟩ 50
       ⟨SigAlg.HS256, ⟨110, 10, 10, 1, "e", "c", "r"⟩,
         ⟨SigAlg.HS256, "sec", ⟨110, 10, 10, 1, "e", "c", "r"⟩⟩⟩
       ⟨110, 10, 10, 1, "e", "c", "r"⟩).2.2 (by rfl)
     exact ⟨h3.1, h3.2.1⟩⟩

/-- C2: the LTI token validator rejects any token whose nonce claim
differs from the expected nonce, whatever the rest of the token looks
like. -/
theorem jwt_nonce_mismatch_rejected (v : JWTValidator) (now : Nat) (ts : String)
    (platform : Platform) (expectedNonce : String) (t : LTIToken)
    (hp : v.parseTok ts = some t) (hn : t.claims.Nonce ≠ expectedNonce) :
    isErr (v.ValidateToken now ts platform expectedNonce) = true := by
  unfold JWTValidator.ValidateToken
  cases hjw : v.jwks platform.JWKSEndpoint with
  | none => simp [isErr]
  | some keys =>
    simp only [hp]
    split_ifs <;> simp_all [isErr]

theorem jwt_nonce_mismatch_rejected_witness :
    exValidator.parseTok "bad-nonce-token" = some exBadNonceToken ∧
    exBadNonceToken.claims.Nonce ≠ "nonce-1" ∧
    isErr (exValidator.ValidateToken 100 "bad-nonce-token" exPlatform "nonce-1") = true :=
  ⟨by rfl, by decide,
   jwt_nonce_mismatch_rejected exValidator 100 "bad-nonce-token" exPlatform "nonce-1"
     exBadNonceToken (by rfl) (by decide)⟩

/-- C4: whenever a launch validation step fails (missing id_token or
state, unknown state, unresolvable platform, or token validation
failure) the handler returns a 400- or 401-class error, sets no session
cookie, and neither creates nor modifies a user; equivalently, session
issuance happens only when every validation has passed. -/
theorem launch_no_partial_session (h : Handler) (now : Nat) (req : HttpRequest)
    (form : LaunchForm)
    (hfail : form.id_token = "" ∨ form.state = "" ∨ h.stateStore form.state = none ∨
      (∃ d, h.stateStore form.state = some d ∧
        h.platformRepo.FindByClientID d.ClientID = none) ∨
      (∃ d p, h.stateStore form.state = some d ∧
        h.platformRepo.FindByClientID d.ClientID = some p ∧
        isErr (h.jwtValidator.ValidateToken now form.id_token p d.Nonce) = true)) :
    ((h.Launch now req form).1.status = 400 ∨ (h.Launch now req form).1.status = 401) ∧
    (h.Launch now req form).1.cookie = none ∧
    ((h.Launch now req form).2).users = h.users ∧
    ((h.Launch now req form).2).nextUserID = h.nextUserID := by
  by_cases h1 : form.id_token = ""
  · simp [Handler.Launch, h1]
  by_cases h2 : form.state = ""
  · simp [Handler.Launch, h1, h2]
  cases hs : h.stateStore form.state with
  | none => simp [Handler.Launch, h1, h2, StateStore.Get, hs]
  | some d =>
    cases hp : h.platformRepo.FindByClientID d.ClientID with
    | none => simp [Handler.Launch, h1, h2, StateStore.Get, hs, hp]
    | some p =>
      cases hv : h.jwtValidator.ValidateToken now form.id_token p d.Nonce with
      | error e => simp [Handler.Launch, h1, h2, StateStore.Get, hs, hp, hv]
      | ok claims =>
        exfalso
        rcases hfail with hf | hf | hf | ⟨d', hd', hf⟩ | ⟨d', p', hd', hp', hf⟩
        · exact h1 hf
        · exact h2 hf
        · rw [hs] at hf; cases hf
        · rw [hs] at hd'
          cases hd'
          rw [hp] at hf
          cases hf
        · rw [hs] at hd'
          cases hd'
          rw [hp] at hp'
          cases hp'
          rw [hv] at hf
          simp [isErr] at hf

theorem launch_no_partial_session_witness :
    exHandler.stateStore "unknown-state" = none ∧
    (((exHandler.Launch 10 exReq ⟨"good-token", "unknown-state"⟩).1.status = 400 ∨
        (exHandler.Launch 10 exReq ⟨"good-token", "unknown-state"⟩).1.status = 401) ∧
      (exHandler.Launch 10 exReq ⟨"good-token", "unknown-state"⟩).1.cookie = none ∧
      ((exHandler.Launch 10 exReq ⟨"good-token", "unknown-state"⟩).2).users = exHandler.users ∧
      ((exHandler.Launch 10 exReq ⟨"good-token", "unknown-state"⟩).2).nextUserID
        = exHandler.nextUserID) :=
  ⟨by decide,
   launch_no_partial_session exHandler 10 exReq ⟨"good-token", "unknown-state"⟩
     (Or.inr (Or.inr (Or.inl (by decide))))⟩

/-- C9: when a launch sets the session cookie, its Secure attribute
equals exactly whether the direct connection carries TLS; the launch
response does not depend on X-Forwarded-Proto at all, although
getLaunchURL (used for the login-initiation redirect_uri) honors that
header.  A launch served over plain HTTP behind a TLS-terminating proxy
therefore sets a non-Secure cookie. -/
theorem launch_cookie_secure_iff_tls (h : Handler) (now : Nat) (req : HttpRequest)
    (form : LaunchForm) (c : Cookie) (proto : String)
    (hc : (h.Launch now req form).1.cookie = some c) :
    c.secure = req.TLS ∧
    (h.Launch now { req with XForwardedProto := proto } form).1
      = (h.Launch now req form).1 ∧
    getLaunchURL ⟨false, req.Host, "https", ""⟩ = "https://" ++ req.Host ++ "/lti/launch" := by
  refine ⟨?_, ?_, ?_⟩
  · by_cases h1 : form.id_token = ""
    · simp [Handler.Launch, h1] at hc
    by_cases h2 : form.state = ""
    · simp [Handler.Launch, h1, h2] at hc
    cases hs : h.stateStore form.state with
    | none => simp [Handler.Launch, h1, h2, StateStore.Get, hs] at hc
    | some d =>
      cases hp : h.platformRepo.FindByClientID d.ClientID with
      | none => simp [Handler.Launch, h1, h2, StateStore.Get, hs, hp] at hc
      | some p =>
        cases hv : h.jwtValidator.ValidateToken now form.id_token p d.Nonce with
        | error e => simp [Handler.Launch, h1, h2, StateStore.Get, hs, hp, hv] at hc
        | ok claims =>
          simp [Handler.Launch, h1, h2, StateStore.Get, hs, hp, hv] at hc
          rw [← hc]
  · cases req
    rfl
  · rfl

theorem launch_cookie_secure_iff_tls_witness :
    (exHandler.Launch 10 exReq exForm).1.cookie = some exCookie ∧
    (exCookie.secure = exReq.TLS ∧
      (exHandler.Launch 10 { exReq with XForwardedProto := "http" } exForm).1
        = (exHandler.Launch 10 exReq exForm).1 ∧
      getLaunchURL ⟨false, exReq.Host, "https", ""⟩
        = "https://" ++ exReq.Host ++ "/lti/launch") :=
  ⟨by rfl, launch_cookie_secure_iff_tls exHandler 10 exReq exForm exCookie "http" (by rfl)⟩

/-- url.Values.Set followed by a lookup of the same key yields the set
value. -/
theorem qget_set_self (q : Query) (k v : String) : (q.set k v).get k = some v := by
  unfold Query.set Query.get
  rw [List.find?_append]
  have hleft : (q.filter (fun p => decide (p.1 ≠ k))).find? (fun p => p.1 == k) = none := by
    rw [List.find?_filter]
    refine List.find?_eq_none.mpr ?_
    intro x _
    by_cases hx : x.1 = k <;> simp [hx]
  rw [hleft]
  simp

/-- url.Values.Set leaves lookups of other keys unchanged. -/
theorem qget_set_ne (q : Query) (k v k' : String) (h : k' ≠ k) :
    (q.set k v).get k' = q.get k' := by
  unfold Query.set Query.get
  induction q with
  | nil => simp [Ne.symm h]
  | cons a t ih =>
    by_cases ha : a.1 = k
    · have hak : ¬(a.1 = k') := by rw [ha]; exact Ne.symm h
      simp only [List.filter_cons]
      rw [if_neg (by simp [ha])]
      rw [List.find?_cons_of_neg _ (by simp [hak])]
      exact ih
    · by_cases hk' : a.1 = k'
      · simp only [List.filter_cons]
        rw [if_pos (by simp [ha])]
        rw [List.cons_append, List.find?_cons_of_pos _ (by simp [hk']),
          List.find?_cons_of_pos _ (by simp [hk'])]
      · simp only [List.filter_cons]
        rw [if_pos (by simp [ha])]
        rw [List.cons_append, List.find?_cons_of_neg _ (by simp [hk']),
          List.find?_cons_of_neg _ (by simp [hk'])]
        exact ih

/-- C7: a valid login-initiation request against a registered platform
yields a 302 redirect to the platform authorization endpoint whose
query carries every required OIDC parameter, with lti_message_hint
present exactly when one was supplied, and afterwards the State Store
holds under the generated state an entry whose nonce is the nonce of
the redirect. -/
theorem login_initiation_redirect (h : Handler) (parseURL : URLEnv) (now : Nat)
    (req : HttpRequest) (form : LoginForm) (state nonce : String)
    (p : Platform) (base : String) (q0 : Query)
    (h1 : form.iss ≠ "") (h2 : form.login_hint ≠ "") (h3 : form.target_link_uri ≠ "")
    (h4 : h.platformRepo.FindByIssuer form.iss = some p)
    (h5 : form.client_id = "" ∨ form.client_id = p.ClientID)
    (h6 : parseURL p.AuthEndpoint = some (base, q0))
    (h7 : q0.get "lti_message_hint" = none) :
    (h.LoginInitiation parseURL now req form state nonce).1.statusOf = 302 ∧
    (h.LoginInitiation parseURL now req form state nonce).1.baseOf = some base ∧
    ((h.LoginInitiation parseURL now req form state nonce).1.queryOf).get "scope"
      = some "openid" ∧
    ((h.LoginInitiation parseURL now req form state nonce).1.queryOf).get "response_type"
      = some "id_token" ∧
    ((h.LoginInitiation parseURL now req form state nonce).1.queryOf).get "client_id"
      = some p.ClientID ∧
    ((h.LoginInitiation parseURL now req form state nonce).1.queryOf).get "redirect_uri"
      = some (getLaunchURL req) ∧
    ((h.LoginInitiation parseURL now req form state nonce).1.queryOf).get "login_hint"
      = some form.login_hint ∧
    ((h.LoginInitiation parseURL now req form state nonce).1.queryOf).get "state"
      = some state ∧
    ((h.LoginInitiation parseURL now req form state nonce).1.queryOf).get "response_mode"
      = some "form_post" ∧
    ((h.LoginInitiation parseURL now req form state nonce).1.queryOf).get "nonce"
      = some nonce ∧
    ((h.LoginInitiation parseURL now req form state nonce).1.queryOf).get "prompt"
      = some "none" ∧
    ((h.LoginInitiation parseURL now req form state nonce).1.queryOf).get "lti_message_hint"
      = (if form.lti_message_hint = "" then none else some form.lti_message_hint) ∧
    ((h.LoginInitiation parseURL now req form state nonce).2) state
      = some ⟨nonce, form.target_link_uri, p.ClientID, now⟩ := by
  have hcid : ¬(form.client_id ≠ "" ∧ form.client_id ≠ p.ClientID) := by
    rcases h5 with h5 | h5 <;> simp [h5]
  unfold Handler.LoginInitiation
  rw [if_neg h1, if_neg h2, if_neg h3, h4]
  simp only [h6, if_neg hcid]
  by_cases hmh : form.lti_message_hint = "" <;>
    simp [hmh, LoginResult.statusOf, LoginResult.baseOf, LoginResult.queryOf,
      qget_set_self, qget_set_ne, h7, StateStore.Store]

theorem login_initiation_redirect_witness :
    ("https://canvas.example.com" : String) ≠ "" ∧
    ("hint-1" : String) ≠ "" ∧
    ("https://app.example.com/home" : String) ≠ "" ∧
    exHandler.platformRepo.FindByIssuer "https://canvas.example.com" = some exPlatform ∧
    exParseURL exPlatform.AuthEndpoint = some ("https://canvas.example.com/auth", []) ∧
    (Query.get [] "lti_message_hint" = none) ∧
    ((exHandler.LoginInitiation exParseURL 30 exReq
        ⟨"https://canvas.example.com", "hint-1", "https://app.example.com/home", "", "mhint"⟩
        "st-9" "n-9").1.statusOf = 302 ∧
      ((exHandler.LoginInitiation exParseURL 30 exReq
        ⟨"https://canvas.example.com", "hint-1", "https://app.example.com/home", "", "mhint"⟩
        "st-9" "n-9").1.queryOf).get "nonce" = some "n-9" ∧
      ((exHandler.LoginInitiation exParseURL 30 exReq
        ⟨"https://canvas.example.com", "hint-1", "https://app.example.com/home", "", "mhint"⟩
        "st-9" "n-9").1.queryOf).get "lti_message_hint" = some "mhint" ∧
      ((exHandler.LoginInitiation exParseURL 30 exReq
        ⟨"https://canvas.example.com", "hint-1", "https://app.example.com/home", "", "mhint"⟩
        "st-9" "n-9").2) "st-9"
        = some ⟨"n-9", "https://app.example.com/home", "client-123", 30⟩) := by
  have hmain := login_initiation_redirect exHandler exParseURL 30 exReq
    ⟨"https://canvas.example.com", "hint-1", "https://app.example.com/home", "", "mhint"⟩
    "st-9" "n-9" exPlatform "https://canvas.example.com/auth" []
    (by decide) (by decide) (by decide) (by rfl) (Or.inl rfl) (by rfl) (by rfl)
  refine ⟨by decide, by decide, by decide, by rfl, by rfl, by rfl, ?_, ?_, ?_, ?_⟩
  · exact hmain.1
  · exact hmain.2.2.2.2.2.2.2.2.2.1
  · have := hmain.2.2.2.2.2.2.2.2.2.2.2.1
    simpa using this
  · exact hmain.2.2.2.2.2.2.2.2.2.2.2.2

/-- find? is the head of the filtered list. -/
theorem find?_eq_head?_filter {α : Type} (p : α → Bool) (l : List α) :
    l.find? p = (l.filter p).head? := by
  induction l with
  | nil => rfl
  | cons a t ih =>
    by_cases hp : p a = true
    · rw [List.find?_cons_of_pos _ hp, List.filter_cons, if_pos hp]
      rfl
    · rw [List.find?_cons_of_neg _ hp, List.filter_cons, if_neg hp]
      exact ih

/-- Replacing, in a table whose ids and issuers are unique, the row
found under an issuer by a row with the same id and issuer leaves
exactly that row under the issuer. -/
theorem filter_update_of_nodup (l : List Platform) (iss : String) (ex p' : Platform)
    (hidnd : (l.map Platform.ID).Nodup) (hissnd : (l.map Platform.Issuer).Nodup)
    (hfind : l.find? (fun x => x.Issuer == iss) = some ex)
    (hpid : p'.ID = ex.ID) (hpiss : p'.Issuer = iss) :
    (l.map (fun r => if r.ID = ex.ID then p' else r)).filter (fun x => x.Issuer == iss)
      = [p'] := by
  induction l with
  | nil => cases hfind
  | cons a t ih =>
    have hidnd' : (t.map Platform.ID).Nodup := by
      rw [List.map_cons] at hidnd
      exact (List.nodup_cons.mp hidnd).2
    have hidhead : a.ID ∉ t.map Platform.ID := by
      rw [List.map_cons] at hidnd
      exact (List.nodup_cons.mp hidnd).1
    have hissnd' : (t.map Platform.Issuer).Nodup := by
      rw [List.map_cons] at hissnd
      exact (List.nodup_cons.mp hissnd).2
    have hisshead : a.Issuer ∉ t.map Platform.Issuer := by
      rw [List.map_cons] at hissnd
      exact (List.nodup_cons.mp hissnd).1
    by_cases hpa : a.Issuer = iss
    · have hexa : ex = a := by
        rw [List.find?_cons_of_pos _ (by simp [hpa])] at hfind
        exact (Option.some_inj.mp hfind).symm
      subst hexa
      have hmap_t : t.map (fun r => if r.ID = ex.ID then p' else r) = t := by
        conv_rhs => rw [← List.map_id t]
        apply List.map_congr_left
        intro r hr
        have hc : ¬(r.ID = ex.ID) :=
          fun hc => hidhead (hc ▸ List.mem_map_of_mem Platform.ID hr)
        simp [hc]
      have hfilter_t : t.filter (fun x => x.Issuer == iss) = [] := by
        refine List.filter_eq_nil_iff.mpr ?_
        intro x hx
        simp only [beq_iff_eq]
        intro hc
        exact hisshead (hpa ▸ hc ▸ List.mem_map_of_mem Platform.Issuer hx)
      rw [List.map_cons, if_pos rfl, hmap_t, List.filter_cons, if_pos (by simp [hpiss]),
        hfilter_t]
    · have hfind' : t.find? (fun x => x.Issuer == iss) = some ex := by
        rwa [List.find?_cons_of_neg _ (by simp [hpa])] at hfind
      have hex_t : ex ∈ t := List.mem_of_find?_eq_some hfind'
      have haid : ¬(a.ID = ex.ID) := by
        intro hc
        exact hidhead (hc ▸ List.mem_map_of_mem Platform.ID hex_t)
      rw [List.map_cons, if_neg haid, List.filter_cons, if_neg (by simp [hpa])]
      exact ih hidnd' hissnd' hfind'

/-- Upsert leaves exactly one row under the upserted issuer and
preserves the table invariants. -/
theorem upsert_filter_spec (db : PlatformDB) (p : Platform) (hwf : db.wf)
    (hid : db.FindByIssuer p.Issuer = none → p.ID = 0) :
    ∃ pnew, pnew.Issuer = p.Issuer ∧
      (db.Upsert p).rows.filter (fun x => x.Issuer == p.Issuer) = [pnew] ∧
      (db.Upsert p).wf := by
  obtain ⟨hidnd, hissnd, hbound⟩ := hwf
  cases hfb : db.FindByIssuer p.Issuer with
  | some ex =>
    have hex_mem : ex ∈ db.rows := List.mem_of_find?_eq_some hfb
    have hupd : (db.Upsert p).rows = db.rows.map
        (fun r => if r.ID = ex.ID then
          { p with ID := ex.ID, CreatedAt := ex.CreatedAt } else r) := by
      unfold PlatformDB.Upsert
      rw [hfb]
      rfl
    have hnext : (db.Upsert p).nextID = db.nextID := by
      unfold PlatformDB.Upsert
      rw [hfb]
      rfl
    refine ⟨{ p with ID := ex.ID, CreatedAt := ex.CreatedAt }, rfl, ?_, ?_, ?_, ?_⟩
    · rw [hupd]
      exact filter_update_of_nodup db.rows p.Issuer ex
        { p with ID := ex.ID, CreatedAt := ex.CreatedAt } hidnd hissnd hfb rfl rfl
    · rw [hupd, List.map_map]
      have : (Platform.ID ∘ fun r => if r.ID = ex.ID then
          { p with ID := ex.ID, CreatedAt := ex.CreatedAt } else r)
          = Platform.ID := by
        funext r
        by_cases hc : r.ID = ex.ID <;> simp [Function.comp, hc]
      rw [this]
      exact hidnd
    · rw [hupd, List.map_map]
      have : ∀ r ∈ db.rows, (Platform.Issuer ∘ fun r => if r.ID = ex.ID then
          { p with ID := ex.ID, CreatedAt := ex.CreatedAt } else r) r
          = Platform.Issuer r := by
        intro r hr
        by_cases hc : r.ID = ex.ID
        · have hre : r = ex := List.inj_on_of_nodup_map hidnd hr hex_mem hc
          have hex_iss : ex.Issuer = p.Issuer := by
            have := List.find?_some hfb
            simpa using this
          simp [Function.comp, hc, hre, hex_iss]
        · simp [Function.comp, hc]
      rw [List.map_congr_left this]
      exact hissnd
    · intro r hr
      rw [hupd] at hr
      rw [hnext]
      obtain ⟨r0, hr0, hr0e⟩ := List.mem_map.mp hr
      by_cases hc : r0.ID = ex.ID
      · rw [if_pos hc] at hr0e
        rw [← hr0e]
        exact hbound ex hex_mem
      · rw [if_neg hc] at hr0e
        rw [← hr0e]
        exact hbound r0 hr0
  | none =>
    have hp0 : p.ID = 0 := hid hfb
    have hnone : ∀ x ∈ db.rows, ¬(x.Issuer == p.Issuer) = true := List.find?_eq_none.mp hfb
    have hcr : (db.Upsert p).rows = db.rows ++ [{ p with ID := db.nextID }] := by
      unfold PlatformDB.Upsert
      rw [hfb]
      unfold PlatformDB.Create
      rw [if_pos hp0]
    have hnext : (db.Upsert p).nextID = db.nextID + 1 := by
      unfold PlatformDB.Upsert
      rw [hfb]
      rfl
    refine ⟨{ p with ID := db.nextID }, rfl, ?_, ?_, ?_, ?_⟩
    · rw [hcr, List.filter_append, List.filter_eq_nil_iff.mpr hnone, List.filter_cons]
      simp
    · rw [hcr, List.map_append]
      refine List.Nodup.append hidnd (List.nodup_singleton _) ?_
      intro x hx hx2
      simp only [List.map_cons, List.map_nil, List.mem_singleton] at hx2
      subst hx2
      obtain ⟨r, hr, hre⟩ := List.mem_map.mp hx
      exact absurd hre (Nat.ne_of_lt (hbound r hr))
    · rw [hcr, List.map_append]
      refine List.Nodup.append hissnd (List.nodup_singleton _) ?_
      intro x hx hx2
      simp only [List.map_cons, List.map_nil, List.mem_singleton] at hx2
      subst hx2
      obtain ⟨r, hr, hre⟩ := List.mem_map.mp hx
      exact hnone r hr (by simp [hre])
    · intro r hr
      rw [hcr, List.mem_append] at hr
      rw [hnext]
      rcases hr with hr | hr
      · exact Nat.lt_succ_of_lt (hbound r hr)
      · simp only [List.mem_singleton] at hr
        rw [hr]
        exact Nat.lt_succ_self _

/-- C8: Upsert is keyed by issuer and idempotent: with the issuer
already registered it updates the existing row in place under the
same id, creating no second row; with the issuer absent it creates
one row; and upserting the same issuer twice leaves exactly one row
for that issuer. -/
theorem platform_upsert_keyed_by_issuer (db : PlatformDB) (p ex : Platform)
    (hwf : db.wf) (hid : p.ID = 0) :
    (db.Upsert p).countIssuer p.Issuer = 1 ∧
    (db.FindByIssuer p.Issuer = some ex →
      (db.Upsert p).rows.length = db.rows.length ∧
      (db.Upsert p).FindByIssuer p.Issuer
        = some { p with ID := ex.ID, CreatedAt := ex.CreatedAt }) ∧
    (db.FindByIssuer p.Issuer = none →
      (db.Upsert p).rows.length = db.rows.length + 1) ∧
    ((db.Upsert p).Upsert p).countIssuer p.Issuer = 1 := by
  obtain ⟨pnew, hpn_iss, hfilter, hwf'⟩ := upsert_filter_spec db p hwf (fun _ => hid)
  refine ⟨?_, ?_, ?_, ?_⟩
  · unfold PlatformDB.countIssuer
    rw [hfilter]
    rfl
  · intro hfb
    have hupd : (db.Upsert p).rows = db.rows.map
        (fun r => if r.ID = ex.ID then
          { p with ID := ex.ID, CreatedAt := ex.CreatedAt } else r) := by
      unfold PlatformDB.Upsert
      rw [hfb]
      rfl
    constructor
    · rw [hupd, List.length_map]
    · unfold PlatformDB.FindByIssuer
      rw [find?_eq_head?_filter, hupd,
        filter_update_of_nodup db.rows p.Issuer ex
          { p with ID := ex.ID, CreatedAt := ex.CreatedAt } hwf.1 hwf.2.1 hfb rfl rfl]
      rfl
  · intro hfb
    have hcr : (db.Upsert p).rows = db.rows ++ [{ p with ID := db.nextID }] := by
      unfold PlatformDB.Upsert
      rw [hfb]
      unfold PlatformDB.Create
      rw [if_pos hid]
    rw [hcr]
    simp
  · obtain ⟨pnew2, _, hfilter2, _⟩ := upsert_filter_spec (db.Upsert p) p hwf' (fun _ => hid)
    unfold PlatformDB.countIssuer
    rw [hfilter2]
    rfl

theorem platform_upsert_keyed_by_issuer_witness :
    exDB.wf ∧ exUpsertPlat.ID = 0 ∧
    ((exDB.Upsert exUpsertPlat).countIssuer exUpsertPlat.Issuer = 1 ∧
      (exDB.FindByIssuer exUpsertPlat.Issuer = some exPlatform →
        (exDB.Upsert exUpsertPlat).rows.length = exDB.rows.length ∧
        (exDB.Upsert exUpsertPlat).FindByIssuer exUpsertPlat.Issuer
          = some { exUpsertPlat with ID := exPlatform.ID, CreatedAt := exPlatform.CreatedAt }) ∧
      (exDB.FindByIssuer exUpsertPlat.Issuer = none →
        (exDB.Upsert exUpsertPlat).rows.length = exDB.rows.length + 1) ∧
      ((exDB.Upsert exUpsertPlat).Upsert exUpsertPlat).countIssuer
        exUpsertPlat.Issuer = 1) :=
  ⟨⟨by decide, by decide, by decide⟩, by decide,
   platform_upsert_keyed_by_issuer exDB exUpsertPlat exPlatform
     ⟨by decide, by decide, by decide⟩ (by decide)⟩

end GEJ
